import Mathlib

/-!
Verification of the flamegraph middleware session lifecycle manager:
the profile storage (`src/storage.js`), the request router and handlers
(`src/index.js`), and the background collection orchestration.

JavaScript `Map` objects are modelled as insertion-ordered association
lists (`mapGet`, `mapSet`, `mapDelete`), matching `Map` semantics:
`set` on an existing key replaces the value in place, `set` on a new key
appends at the end, and `keys().next().value` is the first key.
`setTimeout`/`clearTimeout` are modelled with an explicit list of pending
`Timer` records carrying a fresh numeric handle, the wall-clock instant
the callback is due, and the profile id the callback deletes; the event
loop firing a timer is the explicit `fireTimer` transition.
Wall-clock time (`Date.now()`) is threaded as an explicit `now : Nat`
argument to every operation that reads it.
-/

namespace Flamegraph

/-- Lookup in a JS `Map` modelled as an association list
(first matching key wins; keys are unique in any reachable state). -/
def mapGet {α : Type} (m : List (String × α)) (k : String) : Option α :=
  match m with
  | [] => none
  | (k2, v) :: rest => if k2 = k then some v else mapGet rest k

/-- Method `Map.prototype.set`: replace in place when the key is present,
append at the end when it is absent. -/
def mapSet {α : Type} (m : List (String × α)) (k : String) (v : α) :
    List (String × α) :=
  match m with
  | [] => [(k, v)]
  | (k2, v2) :: rest =>
    if k2 = k then (k2, v) :: rest else (k2, v2) :: mapSet rest k v

/-- Method `Map.prototype.delete`: remove the entry for the key when present. -/
def mapDelete {α : Type} (m : List (String × α)) (k : String) :
    List (String × α) :=
  match m with
  | [] => []
  | (k2, v2) :: rest =>
    if k2 = k then rest else (k2, v2) :: mapDelete rest k

/-- Encoded CPU and heap profile payload stored for a completed session
(the two byte buffers produced by `profiler.encodeProfile`). -/
structure ProfileData where
  cpu : List Nat
  heap : List Nat
deriving DecidableEq

/-- One entry of `this.profiles`: the payload, the absolute expiration
instant `Date.now() + this.profileTTL`, and the handle of the
`setTimeout` scheduled at store time. -/
structure ProfileEntry where
  data : ProfileData
  expiresAt : Nat
  timeout : Nat
deriving DecidableEq

/-- One entry of `this.inProgress`: the spread metadata (`duration`)
plus `startTime: Date.now()` recorded by `markInProgress`. -/
structure InProgressMeta where
  duration : Int
  startTime : Nat
deriving DecidableEq

/-- A pending `setTimeout` created by `storeProfile`: its handle, the
instant it is due (`creation time + profileTTL`), and the profile id its
callback deletes from `this.profiles`. -/
structure Timer where
  handle : Nat
  fireAt : Nat
  target : String
deriving DecidableEq

/-- The `ProfileStorage` instance state: configuration, the two maps,
the pending timers of the environment, and a fresh-handle counter. -/
structure ProfileStorage where
  maxProfiles : Nat
  profileTTL : Nat
  profiles : List (String × ProfileEntry)
  inProgress : List (String × InProgressMeta)
  timers : List Timer
  nextHandle : Nat
deriving DecidableEq

/-- The `ProfileStorage` constructor: `options.maxProfiles || 10` and
`options.profileTTL || 5 * 60 * 1000` (a `0` or absent option falls back
to the default, since `0` is falsy in JS), empty maps. -/
def ProfileStorage.init (maxProfiles profileTTL : Nat) : ProfileStorage :=
  { maxProfiles := if maxProfiles = 0 then 10 else maxProfiles
    profileTTL := if profileTTL = 0 then 300000 else profileTTL
    profiles := []
    inProgress := []
    timers := []
    nextHandle := 0 }

/-- Method `markInProgress(id, metadata)`: spread the metadata and record
`startTime: Date.now()` into `this.inProgress`. -/
def ProfileStorage.markInProgress (s : ProfileStorage) (now : Nat)
    (id : String) (duration : Int) : ProfileStorage :=
  { s with inProgress := mapSet s.inProgress id ⟨duration, now⟩ }

/-- Method `isInProgress(id)`: `this.inProgress.has(id)`. -/
def ProfileStorage.isInProgress (s : ProfileStorage) (id : String) : Bool :=
  (mapGet s.inProgress id).isSome

/-- Method `getInProgressMetadata(id)`: `this.inProgress.get(id) || null`. -/
def ProfileStorage.getInProgressMetadata (s : ProfileStorage) (id : String) :
    Option InProgressMeta :=
  mapGet s.inProgress id

/-- Method `storeProfile(id, data)`: delete the in-progress entry; when
`this.profiles.size >= this.maxProfiles`, delete the first key of the map
(`this.profiles.keys().next().value`; on an empty map that value is
`undefined` and the delete is a no-op); then schedule a `setTimeout` for
`this.profileTTL` whose callback deletes `id`, and set the entry with
`expiresAt = Date.now() + this.profileTTL` and the timeout handle.
Note the eviction branch performs a bare `delete` — it never calls
`clearTimeout` on the evicted entry, and neither does the overwrite
performed by `set` when `id` is already present. -/
def ProfileStorage.storeProfile (s : ProfileStorage) (now : Nat)
    (id : String) (data : ProfileData) : ProfileStorage :=
  let s1 : ProfileStorage := { s with inProgress := mapDelete s.inProgress id }
  let s2 : ProfileStorage :=
    if s1.profiles.length ≥ s1.maxProfiles then
      match s1.profiles with
      | [] => s1
      | (oldestId, _) :: _ =>
        { s1 with profiles := mapDelete s1.profiles oldestId }
    else s1
  { s2 with
    profiles := mapSet s2.profiles id ⟨data, now + s2.profileTTL, s2.nextHandle⟩
    timers := s2.timers ++ [⟨s2.nextHandle, now + s2.profileTTL, id⟩]
    nextHandle := s2.nextHandle + 1 }

/-- Method `getProfile(id)`: absent entry returns `null`; an entry with
`Date.now() > entry.expiresAt` is deleted defensively and `null` is
returned; otherwise `entry.data`. Returns the value together with the
(possibly mutated) storage. -/
def ProfileStorage.getProfile (s : ProfileStorage) (now : Nat)
    (id : String) : Option ProfileData × ProfileStorage :=
  match mapGet s.profiles id with
  | none => (none, s)
  | some entry =>
    if now > entry.expiresAt then
      (none, { s with profiles := mapDelete s.profiles id })
    else
      (some entry.data, s)

/-- Method `deleteProfile(id)`: `clearTimeout(entry.timeout)` when the entry
exists (the timeout handle is always truthy), then delete the entry. -/
def ProfileStorage.deleteProfile (s : ProfileStorage) (id : String) :
    ProfileStorage :=
  let s1 : ProfileStorage :=
    match mapGet s.profiles id with
    | some entry =>
      { s with timers := s.timers.filter (fun t => t.handle != entry.timeout) }
    | none => s
  { s1 with profiles := mapDelete s1.profiles id }

/-- Method `cleanup()`: `clearTimeout` on the timeout of every entry currently
in `this.profiles`, then clear both maps. Timers whose entry is no
longer in the map (for example after a capacity eviction) are not
touched: the loop only sees current entries. -/
def ProfileStorage.cleanup (s : ProfileStorage) : ProfileStorage :=
  let handles := s.profiles.map (fun p => p.2.timeout)
  { s with
    timers := s.timers.filter (fun t => !(handles.contains t.handle))
    profiles := []
    inProgress := [] }

/-- The event loop firing pending timer `h`: the timer is removed from
the pending set and its callback `this.profiles.delete(id)` runs.
Firing an already-cancelled handle is a no-op. -/
def ProfileStorage.fireTimer (s : ProfileStorage) (h : Nat) : ProfileStorage :=
  match s.timers.find? (fun t => t.handle == h) with
  | none => s
  | some t =>
    { s with
      timers := s.timers.filter (fun t2 => t2.handle != h)
      profiles := mapDelete s.profiles t.target }

/-- Character class of the result-route capture group `[a-f0-9]`. -/
def isLowerHex (c : Char) : Bool :=
  c.isDigit || ('a' ≤ c && c ≤ 'f')

/-- Behaviour of `String.prototype.startsWith` on character lists:
`charsStartWith s p` is true when `p` is an initial segment of `s`. -/
def charsStartWith : List Char → List Char → Bool
  | _, [] => true
  | [], _ :: _ => false
  | c :: cs, p :: ps => c == p && charsStartWith cs ps

/-- The `pathname` of `parseUrl(req.url, true)`: the part of the url
before the first query or fragment delimiter. -/
def pathnameOf (url : String) : List Char :=
  url.data.takeWhile (fun c => c != '?' && c != '#')

/-- The regex test `subPath.match(/^\/result\/([a-f0-9]+)$/)`: the
sub-path must be `/result/` followed by a nonempty run of lowercase hex
characters reaching the end; the captured identifier is returned. -/
def resultRouteMatch (subPath : List Char) : Option String :=
  if charsStartWith subPath ("/result/".data) then
    let ident := subPath.drop 8
    if !ident.isEmpty && ident.all isLowerHex then some (String.mk ident)
    else none
  else none

/-- The dispatch decision taken by the returned middleware closure. -/
inductive RouteAction where
  | next
  | startProfiling
  | resultPage (profileId : String)
  | notFound
deriving DecidableEq

/-- The routing logic of `flamegraphMiddleware(req, res, next)`:
`next()` when the pathname does not start with the base path; otherwise
the sub-path after the base path (normalised to `/` when empty by
`|| '/'`) selects the start route, the result route, or the 404 branch. -/
def routeRequest (basePath : String) (url : String) : RouteAction :=
  let pathname := pathnameOf url
  if !charsStartWith pathname basePath.data then .next
  else
    let sub := pathname.drop basePath.data.length
    let subPath := if sub.isEmpty then ['/'] else sub
    if subPath = ['/'] ∨ subPath = ([] : List Char) then .startProfiling
    else
      match resultRouteMatch subPath with
      | some profileId => .resultPage profileId
      | none => .notFound

/-- A rendered response body, abstracting the external html generator:
`generateProgressPage(profileId, duration, basePath)`,
`generateResultsPage(cpu, heap, colors)` (colors elided — they do not
affect control flow), and `generateErrorPage(message, statusCode)`
(the interpolated maximum in the exceeds-maximum message is elided). -/
inductive Page where
  | progress (profileId : String) (duration : Int) (basePath : String)
  | results (cpu heap : List Nat)
  | error (message : String)
deriving DecidableEq

/-- An HTTP response written by the middleware: status code and body. -/
structure Response where
  status : Nat
  body : Page
deriving DecidableEq

/-- Modelled from the spec: the external `parse-duration` npm
dependency, absent from `src/` — "a human-readable duration expression
(e.g., a number followed by a unit like seconds/minutes)" with a bare
integer meaning milliseconds, returning null (`none`) when unparsable.
Covers an optional sign, a digit run, and the common unit suffixes;
fractional values are not modelled. -/
def parseDuration (s : String) : Option Int :=
  let cs := s.data
  let neg := charsStartWith cs ['-']
  let cs2 := if neg then cs.drop 1 else cs
  let ds := cs2.takeWhile Char.isDigit
  let rest := cs2.dropWhile Char.isDigit
  if ds.isEmpty then none
  else
    let n : Int := Int.ofNat (ds.foldl (fun a c => a * 10 + (c.toNat - 48)) 0)
    let n := if neg then -n else n
    match rest with
    | [] => some n
    | ['m', 's'] => some n
    | ['s'] => some (n * 1000)
    | ['m'] => some (n * 60000)
    | ['h'] => some (n * 3600000)
    | _ => none

/-- JS `parseInt(x, 10)`: optional sign then the longest digit run as a
decimal integer, `NaN` (`none`) when no digits are found. -/
def parseIntJS (s : String) : Option Int :=
  let cs := s.data.dropWhile (fun c => c == ' ')
  let neg := charsStartWith cs ['-']
  let cs2 := if neg then cs.drop 1 else cs
  let ds := cs2.takeWhile Char.isDigit
  if ds.isEmpty then none
  else
    let n : Int := Int.ofNat (ds.foldl (fun a c => a * 10 + (c.toNat - 48)) 0)
    some (if neg then -n else n)

/-- The JS truthiness test `if (query.duration)`: an absent parameter
and the empty string are both falsy. -/
def queryParamTruthy : Option String → Bool
  | none => false
  | some s => !s.isEmpty

/-- The middleware options relevant to routing and validation, after
defaulting: `basePath = '/flamegraph'`, `maxDuration = 60000`,
`defaultDuration = 10000`. -/
structure MiddlewareConfig where
  basePath : String
  maxDuration : Int
  defaultDuration : Int
deriving DecidableEq

/-- The defaulted configuration of `createFlamegraphMiddleware({})`. -/
def MiddlewareConfig.defaults : MiddlewareConfig :=
  { basePath := "/flamegraph", maxDuration := 60000, defaultDuration := 10000 }

/-- Result of `handleStartProfiling`: the response written, the storage
after any `markInProgress`, and the `(profileId, duration)` handed to
`collectProfilesInBackground` when a session was launched. -/
structure StartResult where
  response : Response
  storage : ProfileStorage
  started : Option (String × Int)
deriving DecidableEq

/-- Handler `handleStartProfiling(req, res, query)`: parse the duration
parameter with `parseDuration`, fall back to `parseInt`, 400 when both
fail; the absent (or falsy) parameter uses `defaultDuration`; then
reject `duration <= 0` and `duration > maxDuration` with 400; otherwise
mark the freshly generated id in progress, launch collection in the
background, and answer 200 with the progress page. -/
def handleStartProfiling (cfg : MiddlewareConfig) (s : ProfileStorage)
    (now : Nat) (durationParam : Option String) (freshId : String) :
    StartResult :=
  let proceed : Int → StartResult := fun duration =>
    if duration ≤ 0 then
      ⟨⟨400, Page.error "Duration must be greater than 0"⟩, s, none⟩
    else if duration > cfg.maxDuration then
      ⟨⟨400, Page.error "Duration exceeds maximum allowed"⟩, s, none⟩
    else
      ⟨⟨200, Page.progress freshId duration cfg.basePath⟩,
        s.markInProgress now freshId duration,
        some (freshId, duration)⟩
  if queryParamTruthy durationParam then
    let raw := durationParam.getD ""
    match parseDuration raw with
    | some d => proceed d
    | none =>
      match parseIntJS raw with
      | some d => proceed d
      | none => ⟨⟨400, Page.error "Invalid duration parameter"⟩, s, none⟩
  else proceed cfg.defaultDuration

/-- Handler `handleResultPage(req, res, profileId)`: while in progress, recompute
`remaining = max(0, duration - (Date.now() - startTime))` and answer the
progress page while positive, else the 202 processing hint (the inner
`null` metadata branch is unreachable since `isInProgress` and
`getInProgressMetadata` read the same map, and would throw into the
catch-all 500); otherwise serve the completed profile or 404. -/
def handleResultPage (cfg : MiddlewareConfig) (s : ProfileStorage)
    (now : Nat) (profileId : String) : Response × ProfileStorage :=
  if s.isInProgress profileId then
    match s.getInProgressMetadata profileId with
    | some metadata =>
      let elapsed : Int := (now : Int) - (metadata.startTime : Int)
      let remaining : Int := max 0 (metadata.duration - elapsed)
      if remaining > 0 then
        (⟨200, Page.progress profileId remaining cfg.basePath⟩, s)
      else
        (⟨202, Page.error "Profile is being processed"⟩, s)
    | none => (⟨500, Page.error "Failed to generate results page"⟩, s)
  else
    let result := s.getProfile now profileId
    match result.1 with
    | none => (⟨404, Page.error "Profile not found or expired"⟩, result.2)
    | some profileData =>
      (⟨200, Page.results profileData.cpu profileData.heap⟩, result.2)

/-- What the middleware did with the request: called the fallthrough
continuation (writing nothing), or wrote a response itself. -/
inductive Outcome where
  | callNext
  | respond (r : Response)
deriving DecidableEq

/-- Result of one middleware invocation. -/
structure MiddlewareResult where
  outcome : Outcome
  storage : ProfileStorage
  started : Option (String × Int)
deriving DecidableEq

/-- One invocation of the middleware closure: route, then run the
selected handler; the unknown-path branch writes
`sendError(res, 'Not found', 404)`. `durationParam` is
`parsedUrl.query.duration` and `freshId` is the `storage.generateId()`
draw consumed if a session starts. -/
def flamegraphMiddleware (cfg : MiddlewareConfig) (s : ProfileStorage)
    (now : Nat) (url : String) (durationParam : Option String)
    (freshId : String) : MiddlewareResult :=
  match routeRequest cfg.basePath url with
  | .next => ⟨.callNext, s, none⟩
  | .startProfiling =>
    let r := handleStartProfiling cfg s now durationParam freshId
    ⟨.respond r.response, r.storage, r.started⟩
  | .resultPage profileId =>
    let r := handleResultPage cfg s now profileId
    ⟨.respond r.1, r.2, none⟩
  | .notFound => ⟨.respond ⟨404, Page.error "Not found"⟩, s, none⟩

/-- Orchestrator `collectProfilesInBackground(profileId, duration)`: the external
profiler collection and encoding are abstracted into `collected`; on
success the encoded payload is handed to `storeProfile`, and the catch
branch only logs — the storage is left untouched. -/
def collectProfilesInBackground (s : ProfileStorage) (now : Nat)
    (profileId : String) (collected : Except String ProfileData) :
    ProfileStorage :=
  match collected with
  | .ok data => s.storeProfile now profileId data
  | .error _ => s

/-- The two maps never both hold an identifier. -/
def DisjointMaps (s : ProfileStorage) : Prop :=
  ∀ id, mapGet s.profiles id = none ∨ mapGet s.inProgress id = none

/-! ### Concrete scenarios used to instantiate the theorems -/

/-- A capacity-1, TTL-100 store after one completed profile at time 0. -/
def storeAA : ProfileStorage :=
  (ProfileStorage.init 1 100).storeProfile 0 "aa" ⟨[1], [2]⟩

/-- State `storeAA` after a second, distinct profile stored at time 0: the
first record is evicted by capacity. -/
def storeAB : ProfileStorage :=
  storeAA.storeProfile 0 "bb" ⟨[3], [4]⟩

/-- A capacity-2, TTL-100 store holding two completed profiles. -/
def storeAB2 : ProfileStorage :=
  ((ProfileStorage.init 2 100).storeProfile 0 "aa" ⟨[1], [2]⟩).storeProfile
    0 "bb" ⟨[3], [4]⟩

/-- A capacity-3, TTL-100 store with one profile stored at time 0. -/
def storeA3 : ProfileStorage :=
  (ProfileStorage.init 3 100).storeProfile 0 "aa" ⟨[1], [2]⟩

/-- The same identifier stored twice, at times 0 and 50, in a TTL-100
store that is nowhere near capacity. -/
def restoreScenario : ProfileStorage :=
  ((ProfileStorage.init 5 100).storeProfile 0 "aa" ⟨[1], [2]⟩).storeProfile
    50 "aa" ⟨[3], [4]⟩

/-- A store with one session marked in progress at time 0 for 100ms. -/
def inProgressScenario : ProfileStorage :=
  (ProfileStorage.init 10 1000).markInProgress 0 "ab" 100

/-! ### General lemmas about the `Map` model -/

theorem mapGet_eq_none_iff {α : Type} (m : List (String × α)) (k : String) :
    mapGet m k = none ↔ k ∉ m.map Prod.fst := by
  induction m with
  | nil => simp [mapGet]
  | cons p rest ih =>
    obtain ⟨a, b⟩ := p
    by_cases h : a = k
    · subst h
      simp [mapGet]
    · simp [mapGet, h, ih, Ne.symm h]

theorem mapGet_set_self {α : Type} (m : List (String × α)) (k : String)
    (v : α) : mapGet (mapSet m k v) k = some v := by
  induction m with
  | nil => simp [mapSet, mapGet]
  | cons p rest ih =>
    obtain ⟨a, b⟩ := p
    by_cases h : a = k
    · simp [mapSet, mapGet, h]
    · simp [mapSet, mapGet, h, ih]

theorem mapGet_set_ne {α : Type} (m : List (String × α)) (k q : String)
    (v : α) (hne : q ≠ k) : mapGet (mapSet m k v) q = mapGet m q := by
  induction m with
  | nil => simp [mapSet, mapGet, Ne.symm hne]
  | cons p rest ih =>
    obtain ⟨a, b⟩ := p
    by_cases h : a = k
    · subst h
      simp [mapSet, mapGet, Ne.symm hne]
    · by_cases h2 : a = q
      · simp [mapSet, mapGet, h, h2, hne]
      · simp [mapSet, mapGet, h, h2, ih]

theorem mapGet_delete_ne {α : Type} (m : List (String × α)) (k q : String)
    (hne : q ≠ k) : mapGet (mapDelete m k) q = mapGet m q := by
  induction m with
  | nil => simp [mapDelete]
  | cons p rest ih =>
    obtain ⟨a, b⟩ := p
    by_cases h : a = k
    · subst h
      simp [mapDelete, mapGet, Ne.symm hne]
    · by_cases h2 : a = q
      · simp [mapDelete, mapGet, h, h2, hne]
      · simp [mapDelete, mapGet, h, h2, ih]

theorem mapDelete_keys_sublist {α : Type} (m : List (String × α))
    (k : String) :
    ((mapDelete m k).map Prod.fst).Sublist (m.map Prod.fst) := by
  induction m with
  | nil => simp [mapDelete]
  | cons p rest ih =>
    obtain ⟨a, b⟩ := p
    by_cases h : a = k
    · simp only [mapDelete, if_pos h, List.map_cons]
      exact List.sublist_cons_self a (rest.map Prod.fst)
    · simpa [mapDelete, h] using ih.cons₂ a

theorem mapGet_delete_none {α : Type} (m : List (String × α)) (k q : String)
    (h : mapGet m q = none) : mapGet (mapDelete m k) q = none := by
  rw [mapGet_eq_none_iff] at h ⊢
  exact fun hq => h ((mapDelete_keys_sublist m k).subset hq)

theorem mapGet_delete_self {α : Type} (m : List (String × α)) (k : String)
    (hnd : (m.map Prod.fst).Nodup) : mapGet (mapDelete m k) k = none := by
  induction m with
  | nil => simp [mapDelete, mapGet]
  | cons p rest ih =>
    obtain ⟨a, b⟩ := p
    obtain ⟨ha, hrest⟩ := List.nodup_cons.mp hnd
    by_cases h : a = k
    · subst h
      simp [mapDelete]
      exact (mapGet_eq_none_iff rest a).mpr ha
    · simp [mapDelete, mapGet, h, ih hrest]

theorem mapSet_of_not_mem {α : Type} (m : List (String × α)) (k : String)
    (v : α) (h : k ∉ m.map Prod.fst) : mapSet m k v = m ++ [(k, v)] := by
  induction m with
  | nil => simp [mapSet]
  | cons p rest ih =>
    obtain ⟨a, b⟩ := p
    simp only [List.map_cons, List.mem_cons] at h
    push_neg at h
    simp [mapSet, Ne.symm h.1, ih h.2]

theorem mapSet_length_le {α : Type} (m : List (String × α)) (k : String)
    (v : α) : (mapSet m k v).length ≤ m.length + 1 := by
  induction m with
  | nil => simp [mapSet]
  | cons p rest ih =>
    obtain ⟨a, b⟩ := p
    by_cases h : a = k
    · simp [mapSet, h]
    · simp only [mapSet, if_neg h, List.length_cons]
      omega

theorem mapGet_of_mem_nodup {α : Type} (m : List (String × α))
    (k : String) (v : α) (hmem : (k, v) ∈ m)
    (hnd : (m.map Prod.fst).Nodup) : mapGet m k = some v := by
  induction m with
  | nil => simp at hmem
  | cons p rest ih =>
    obtain ⟨a, b⟩ := p
    obtain ⟨ha, hrest⟩ := List.nodup_cons.mp hnd
    rcases List.mem_cons.mp hmem with heq | hmem2
    · obtain ⟨h1, h2⟩ := Prod.mk.injEq .. ▸ heq
      simp [mapGet, h1.symm, h2]
    · have hk : k ∈ rest.map Prod.fst :=
        List.mem_map.mpr ⟨(k, v), hmem2, rfl⟩
      have hne : a ≠ k := fun h => ha (h ▸ hk)
      simp [mapGet, hne, ih hmem2 hrest]

/-! ### Characterisation of `storeProfile` -/

theorem storeProfile_fields (s : ProfileStorage) (now : Nat) (id : String)
    (data : ProfileData) :
    (s.storeProfile now id data).maxProfiles = s.maxProfiles ∧
    (s.storeProfile now id data).profileTTL = s.profileTTL ∧
    (s.storeProfile now id data).timers
      = s.timers ++ [⟨s.nextHandle, now + s.profileTTL, id⟩] ∧
    (s.storeProfile now id data).nextHandle = s.nextHandle + 1 ∧
    (s.storeProfile now id data).inProgress = mapDelete s.inProgress id := by
  unfold ProfileStorage.storeProfile
  by_cases h : s.profiles.length ≥ s.maxProfiles
  · rcases hp : s.profiles with _ | ⟨⟨a, b⟩, rest⟩
    · rw [hp] at h
      simp [h, hp]
    · rw [hp] at h
      have h3 : s.maxProfiles ≤ rest.length + 1 := by simpa using h
      simp [hp, h3]
  · simp [h]

theorem storeProfile_profiles_not_full (s : ProfileStorage) (now : Nat)
    (id : String) (data : ProfileData)
    (h : s.profiles.length < s.maxProfiles) :
    (s.storeProfile now id data).profiles
      = mapSet s.profiles id ⟨data, now + s.profileTTL, s.nextHandle⟩ := by
  unfold ProfileStorage.storeProfile
  simp [Nat.not_le.mpr h]

theorem storeProfile_profiles_full (s : ProfileStorage) (now : Nat)
    (id : String) (data : ProfileData) (k0 : String) (e0 : ProfileEntry)
    (rest : List (String × ProfileEntry))
    (hp : s.profiles = (k0, e0) :: rest)
    (h : s.maxProfiles ≤ s.profiles.length) :
    (s.storeProfile now id data).profiles
      = mapSet rest id ⟨data, now + s.profileTTL, s.nextHandle⟩ := by
  have h2 : s.maxProfiles ≤ ((k0, e0) :: rest).length := hp ▸ h
  have h3 : s.maxProfiles ≤ rest.length + 1 := by simpa using h2
  unfold ProfileStorage.storeProfile
  simp only [hp]
  simp [ge_iff_le, h3, mapDelete]

theorem storeProfile_profiles_empty (s : ProfileStorage) (now : Nat)
    (id : String) (data : ProfileData) (hp : s.profiles = []) :
    (s.storeProfile now id data).profiles
      = [(id, ⟨data, now + s.profileTTL, s.nextHandle⟩)] := by
  unfold ProfileStorage.storeProfile
  by_cases h : s.profiles.length ≥ s.maxProfiles
  · rw [hp] at h
    simp [hp, ge_iff_le, Nat.le_zero.mp (by simpa using h), mapSet]
  · rw [hp] at h
    simp [hp, ge_iff_le, fun hh => h (by simpa [hp] using hh), mapSet]

theorem storeProfile_get_stored (s : ProfileStorage) (now : Nat)
    (id : String) (data : ProfileData) :
    mapGet (s.storeProfile now id data).profiles id
      = some ⟨data, now + s.profileTTL, s.nextHandle⟩ := by
  rcases hp : s.profiles with _ | ⟨⟨a, b⟩, rest⟩
  · rw [storeProfile_profiles_empty s now id data hp]
    simp [mapGet]
  · by_cases h : s.maxProfiles ≤ s.profiles.length
    · rw [storeProfile_profiles_full s now id data a b rest hp h]
      exact mapGet_set_self _ _ _
    · rw [storeProfile_profiles_not_full s now id data (Nat.not_le.mp h)]
      exact mapGet_set_self _ _ _

/-! ### Claim C2: timer cancellation on deletion and on eviction -/

/-- Claim C2 (counterexample): after storing a second profile into a
capacity-1 store, the evicted record `aa` is gone from the completed
map, yet its scheduled removal (the timer with handle 0) is still
pending — the eviction step did not cancel it, so not every pending
scheduled removal corresponds to a record currently in the completed
map. -/
theorem eviction_leaves_timer_pending_cex :
    (⟨0, 100, "aa"⟩ : Timer) ∈ storeAB.timers ∧
    mapGet storeAB.profiles "aa" = none := by decide

/-- Claim C2 (amended): `deleteProfile` does cancel the deleted entry's
pending scheduled removal, but `storeProfile` cancels nothing: it only
appends the new record's timer, so the capacity-eviction step inside it
leaves the evicted record's scheduled removal pending. -/
theorem timer_cancellation_amended (s : ProfileStorage) (now : Nat)
    (id : String) (data : ProfileData) (entry : ProfileEntry)
    (hentry : mapGet s.profiles id = some entry) :
    (s.deleteProfile id).timers
      = s.timers.filter (fun t => t.handle != entry.timeout) ∧
    (s.storeProfile now id data).timers
      = s.timers ++ [⟨s.nextHandle, now + s.profileTTL, id⟩] := by
  constructor
  · unfold ProfileStorage.deleteProfile
    simp [hentry]
  · exact (storeProfile_fields s now id data).2.2.1

/-- Witness for `timer_cancellation_amended` at a concrete store. -/
theorem timer_cancellation_amended_witness :
    (storeAA.deleteProfile "aa").timers
      = storeAA.timers.filter
          (fun t => t.handle != (⟨⟨[1], [2]⟩, 100, 0⟩ : ProfileEntry).timeout) ∧
    (storeAA.storeProfile 5 "aa" ⟨[3], [4]⟩).timers
      = storeAA.timers ++ [⟨storeAA.nextHandle, 5 + storeAA.profileTTL, "aa"⟩] :=
  timer_cancellation_amended storeAA 5 "aa" ⟨[3], [4]⟩ ⟨⟨[1], [2]⟩, 100, 0⟩
    (by decide)

/-! ### Claim C3: capacity bound and FIFO eviction -/

/-- Claim C3 (confirmed): the completed map never exceeds the configured
capacity, and a store into a full map with a fresh identifier evicts
exactly the oldest-inserted record: the result is the old tail plus the
new record at the end, the old head is no longer present, the count is
back at capacity, and the new record and every surviving unexpired
record are retrievable through `getProfile`. -/
theorem storeProfile_capacity_eviction (s : ProfileStorage) (now : Nat)
    (id : String) (data : ProfileData)
    (hmax : 0 < s.maxProfiles)
    (hnodup : (s.profiles.map Prod.fst).Nodup)
    (hlen : s.profiles.length ≤ s.maxProfiles) :
    ((s.storeProfile now id data).profiles.length ≤ s.maxProfiles) ∧
    (∀ k0 e0 rest, s.profiles = (k0, e0) :: rest →
      s.profiles.length = s.maxProfiles →
      mapGet s.profiles id = none →
        (s.storeProfile now id data).profiles
          = rest ++ [(id, ⟨data, now + s.profileTTL, s.nextHandle⟩)] ∧
        mapGet (s.storeProfile now id data).profiles k0 = none ∧
        (s.storeProfile now id data).profiles.length = s.maxProfiles ∧
        ((s.storeProfile now id data).getProfile now id).1 = some data ∧
        (∀ q e, (q, e) ∈ rest → now ≤ e.expiresAt →
          ((s.storeProfile now id data).getProfile now q).1 = some e.data)) := by
  constructor
  · by_cases h : s.maxProfiles ≤ s.profiles.length
    · rcases hp : s.profiles with _ | ⟨⟨a, b⟩, rest⟩
      · rw [hp] at h
        simp at h
        omega
      · rw [storeProfile_profiles_full s now id data a b rest hp h]
        have h1 := mapSet_length_le rest id
          ⟨data, now + s.profileTTL, s.nextHandle⟩
        have h2 : s.profiles.length = rest.length + 1 := by rw [hp]; simp
        omega
    · rw [storeProfile_profiles_not_full s now id data (Nat.not_le.mp h)]
      have h1 := mapSet_length_le s.profiles id
        ⟨data, now + s.profileTTL, s.nextHandle⟩
      omega
  · intro k0 e0 rest hp hfull hfresh
    have hfullle : s.maxProfiles ≤ s.profiles.length := le_of_eq hfull.symm
    have hsp := storeProfile_profiles_full s now id data k0 e0 rest hp hfullle
    have hidnotin : id ∉ s.profiles.map Prod.fst :=
      (mapGet_eq_none_iff _ _).mp hfresh
    rw [hp] at hidnotin
    simp only [List.map_cons, List.mem_cons, not_or] at hidnotin
    have hidrest : id ∉ rest.map Prod.fst := hidnotin.2
    have hknotid : k0 ≠ id := fun hh => hidnotin.1 (hh.symm)
    have hnodup2 : (k0 :: rest.map Prod.fst).Nodup := by
      have := hp ▸ hnodup
      simpa using this
    obtain ⟨hk0notin, hrestnodup⟩ := List.nodup_cons.mp hnodup2
    have hre : (s.storeProfile now id data).profiles
        = rest ++ [(id, ⟨data, now + s.profileTTL, s.nextHandle⟩)] := by
      rw [hsp, mapSet_of_not_mem rest id _ hidrest]
    refine ⟨hre, ?_, ?_, ?_, ?_⟩
    · rw [hsp, mapGet_set_ne rest id k0 _ hknotid]
      exact (mapGet_eq_none_iff _ _).mpr hk0notin
    · rw [hre]
      have h2 : s.profiles.length = rest.length + 1 := by rw [hp]; simp
      simp
      omega
    · have hget := storeProfile_get_stored s now id data
      simp only [ProfileStorage.getProfile, hget]
      rw [if_neg (by omega)]
    · intro q e hqe hunexp
      have hq : q ∈ rest.map Prod.fst := List.mem_map.mpr ⟨(q, e), hqe, rfl⟩
      have hqid : q ≠ id := fun hh => hidrest (hh ▸ hq)
      have hgq : mapGet (s.storeProfile now id data).profiles q = some e := by
        rw [hsp, mapGet_set_ne rest id q _ hqid]
        exact mapGet_of_mem_nodup rest q e hqe hrestnodup
      simp only [ProfileStorage.getProfile, hgq]
      rw [if_neg (by omega)]

/-- Witness for `storeProfile_capacity_eviction` at a concrete full
capacity-2 store: storing `cc` evicts exactly `aa`, and `bb` and `cc`
stay retrievable. -/
theorem storeProfile_capacity_eviction_witness :
    ((storeAB2.storeProfile 0 "cc" ⟨[5], [6]⟩).profiles.length
      ≤ storeAB2.maxProfiles) ∧
    (storeAB2.storeProfile 0 "cc" ⟨[5], [6]⟩).profiles
      = [("bb", ⟨⟨[3], [4]⟩, 100, 1⟩), ("cc", ⟨⟨[5], [6]⟩, 100, 2⟩)] ∧
    mapGet (storeAB2.storeProfile 0 "cc" ⟨[5], [6]⟩).profiles "aa" = none ∧
    ((storeAB2.storeProfile 0 "cc" ⟨[5], [6]⟩).getProfile 0 "cc").1
      = some ⟨[5], [6]⟩ ∧
    ((storeAB2.storeProfile 0 "cc" ⟨[5], [6]⟩).getProfile 0 "bb").1
      = some ⟨[3], [4]⟩ := by
  have h := storeProfile_capacity_eviction storeAB2 0 "cc" ⟨[5], [6]⟩
    (by decide) (by decide) (by decide)
  have h2 := h.2 "aa" ⟨⟨[1], [2]⟩, 100, 0⟩ [("bb", ⟨⟨[3], [4]⟩, 100, 1⟩)]
    (by decide) (by decide) (by decide)
  exact ⟨h.1, h2.1, h2.2.1, h2.2.2.2.1,
    h2.2.2.2.2 "bb" ⟨⟨[3], [4]⟩, 100, 1⟩ (by decide) (by decide)⟩

/-! ### Claim C4: TTL expiration at read time -/

/-- Claim C4 (counterexample): a record stored at t0 = 0 with TTL 100 is
still returned by `getProfile` at exactly t = t0 + TTL = 100 when the
scheduled removal has not fired, because the read-time check is the
strict `Date.now() > entry.expiresAt`; the claim requires absence at
every t ≥ t0 + TTL. -/
theorem getProfile_exact_expiry_cex :
    storeA3.profileTTL = 100 ∧
    (storeA3.getProfile 100 "aa").1 = some ⟨[1], [2]⟩ := by decide

/-- Claim C4 (amended): a record stored at t0 is returned at every
t ≤ t0 + TTL (boundary included, since the read-time check is strict)
while its entry is present, and `getProfile` returns none at every
t > t0 + TTL even if the scheduled removal has not fired, as well as for
any identifier with no entry (never stored or evicted). -/
theorem getProfile_ttl_amended (s : ProfileStorage) (t0 t : Nat)
    (id : String) (data : ProfileData) :
    (t ≤ t0 + s.profileTTL →
      ((s.storeProfile t0 id data).getProfile t id).1 = some data) ∧
    (t0 + s.profileTTL < t →
      ((s.storeProfile t0 id data).getProfile t id).1 = none) ∧
    (∀ q, mapGet s.profiles q = none → (s.getProfile t q).1 = none) := by
  have hget := storeProfile_get_stored s t0 id data
  refine ⟨?_, ?_, ?_⟩
  · intro ht
    simp only [ProfileStorage.getProfile, hget]
    rw [if_neg (by omega)]
  · intro ht
    simp only [ProfileStorage.getProfile, hget]
    rw [if_pos (by omega)]
  · intro q hq
    simp [ProfileStorage.getProfile, hq]

/-- Witness for `getProfile_ttl_amended`: retrieval at the boundary
t = 100 = t0 + TTL, absence at t = 101, and absence for an identifier
never stored. -/
theorem getProfile_ttl_amended_witness :
    ((storeA3.getProfile 100 "aa").1 = some ⟨[1], [2]⟩) ∧
    ((storeA3.getProfile 101 "aa").1 = none) ∧
    (((ProfileStorage.init 3 100).getProfile 5 "zz").1 = none) :=
  ⟨(getProfile_ttl_amended (ProfileStorage.init 3 100) 0 100 "aa"
      ⟨[1], [2]⟩).1 (by decide),
   (getProfile_ttl_amended (ProfileStorage.init 3 100) 0 101 "aa"
      ⟨[1], [2]⟩).2.1 (by decide),
   (getProfile_ttl_amended (ProfileStorage.init 3 100) 0 5 "zz"
      ⟨[1], [2]⟩).2.2 "zz" (by decide)⟩

/-! ### Claim C10: re-storing an identifier leaves the old timer live -/

/-- Claim C10 (confirmed): storing the same identifier a second time
does not cancel the first store's scheduled removal. The old timer
(handle 0, due at t0 + TTL) is still pending after the second store, the
map entry was overwritten in place with the new payload expiring at
t1 + TTL, the re-stored record is still retrievable at t0 + TTL — yet
firing the old timer at that instant deletes the entry, after which the
record is irretrievable at every time, before its own TTL has elapsed. -/
theorem restore_keeps_old_timer (C T t0 t1 : Nat) (id : String)
    (d0 d1 : ProfileData) (h01 : t0 ≤ t1) :
    ((⟨0, t0 + (ProfileStorage.init C T).profileTTL, id⟩ : Timer)
      ∈ (((ProfileStorage.init C T).storeProfile t0 id d0).storeProfile
          t1 id d1).timers) ∧
    mapGet (((ProfileStorage.init C T).storeProfile t0 id d0).storeProfile
        t1 id d1).profiles id
      = some ⟨d1, t1 + (ProfileStorage.init C T).profileTTL, 1⟩ ∧
    (((((ProfileStorage.init C T).storeProfile t0 id d0).storeProfile
        t1 id d1).getProfile (t0 + (ProfileStorage.init C T).profileTTL)
        id).1 = some d1) ∧
    mapGet (((((ProfileStorage.init C T).storeProfile t0 id d0).storeProfile
        t1 id d1).fireTimer 0).profiles) id = none ∧
    (∀ t, ((((((ProfileStorage.init C T).storeProfile t0 id d0).storeProfile
        t1 id d1).fireTimer 0).getProfile t id).1 = none)) := by
  set s0 := ProfileStorage.init C T with hs0
  set s1 := s0.storeProfile t0 id d0 with hs1
  set s2 := s1.storeProfile t1 id d1 with hs2
  have hf0 := storeProfile_fields s0 t0 id d0
  have hf1 := storeProfile_fields s1 t1 id d1
  have h0p : s0.profiles = [] := rfl
  have h0t : s0.timers = [] := rfl
  have h0n : s0.nextHandle = 0 := rfl
  have h1p : s1.profiles = [(id, ⟨d0, t0 + s0.profileTTL, 0⟩)] := by
    rw [hs1, storeProfile_profiles_empty s0 t0 id d0 h0p, h0n]
  have h1t : s1.timers = [⟨0, t0 + s0.profileTTL, id⟩] := by
    rw [hs1]
    rw [(storeProfile_fields s0 t0 id d0).2.2.1, h0t, h0n]
    simp
  have h1n : s1.nextHandle = 1 := by
    rw [hs1, (storeProfile_fields s0 t0 id d0).2.2.2.1, h0n]
  have h1ttl : s1.profileTTL = s0.profileTTL :=
    hs1 ▸ (storeProfile_fields s0 t0 id d0).2.1
  have h1max : s1.maxProfiles = s0.maxProfiles :=
    hs1 ▸ (storeProfile_fields s0 t0 id d0).1
  have h2p : s2.profiles = [(id, ⟨d1, t1 + s0.profileTTL, 1⟩)] := by
    by_cases hm : s1.maxProfiles ≤ s1.profiles.length
    · rw [hs2, storeProfile_profiles_full s1 t1 id d1 id
        ⟨d0, t0 + s0.profileTTL, 0⟩ [] h1p hm, h1n, h1ttl]
      simp [mapSet]
    · rw [hs2, storeProfile_profiles_not_full s1 t1 id d1 (Nat.not_le.mp hm),
        h1p, h1n, h1ttl]
      simp [mapSet]
  have h2t : s2.timers
      = [⟨0, t0 + s0.profileTTL, id⟩, ⟨1, t1 + s0.profileTTL, id⟩] := by
    rw [hs2, (storeProfile_fields s1 t1 id d1).2.2.1, h1t, h1n, h1ttl]
    rfl
  have h2get : mapGet s2.profiles id = some ⟨d1, t1 + s0.profileTTL, 1⟩ := by
    rw [h2p]
    simp [mapGet]
  have hfire : (s2.fireTimer 0).profiles = [] := by
    unfold ProfileStorage.fireTimer
    rw [h2t]
    simp [List.find?, h2p, mapDelete]
  refine ⟨?_, h2get, ?_, ?_, ?_⟩
  · rw [h2t]
    simp
  · simp only [ProfileStorage.getProfile, h2get]
    rw [if_neg (by omega)]
  · rw [hfire]
    rfl
  · intro t
    have : mapGet (s2.fireTimer 0).profiles id = none := by rw [hfire]; rfl
    simp [ProfileStorage.getProfile, this]

/-- Witness for `restore_keeps_old_timer` at concrete inputs. -/
theorem restore_keeps_old_timer_witness :
    ((⟨0, 100, "aa"⟩ : Timer) ∈ restoreScenario.timers) ∧
    ((restoreScenario.getProfile 100 "aa").1 = some ⟨[3], [4]⟩) ∧
    mapGet ((restoreScenario.fireTimer 0).profiles) "aa" = none := by
  have h := restore_keeps_old_timer 5 100 0 50 "aa" ⟨[1], [2]⟩ ⟨[3], [4]⟩
    (by decide)
  exact ⟨h.1, h.2.2.1, h.2.2.2.1⟩

/-! ### Field characterisations of the remaining operations -/

theorem storeProfile_get_other (s : ProfileStorage) (now : Nat)
    (id q : String) (data : ProfileData) (hq : q ≠ id)
    (h : mapGet s.profiles q = none) :
    mapGet (s.storeProfile now id data).profiles q = none := by
  rcases hp : s.profiles with _ | ⟨⟨a, b⟩, rest⟩
  · rw [storeProfile_profiles_empty s now id data hp]
    simp [mapGet, Ne.symm hq]
  · by_cases hfull : s.maxProfiles ≤ s.profiles.length
    · rw [storeProfile_profiles_full s now id data a b rest hp hfull,
        mapGet_set_ne _ _ _ _ hq]
      have h2 := mapGet_delete_none s.profiles a q h
      rw [hp] at h2
      simpa [mapDelete] using h2
    · rw [storeProfile_profiles_not_full s now id data (Nat.not_le.mp hfull),
        mapGet_set_ne _ _ _ _ hq]
      exact h

theorem getProfile_snd_fields (s : ProfileStorage) (now : Nat)
    (id : String) :
    ((s.getProfile now id).2.inProgress = s.inProgress) ∧
    (((s.getProfile now id).2.profiles = s.profiles) ∨
      ((s.getProfile now id).2.profiles = mapDelete s.profiles id)) := by
  unfold ProfileStorage.getProfile
  cases h : mapGet s.profiles id with
  | none => simp [h]
  | some e =>
    by_cases ht : now > e.expiresAt <;> simp [h, ht]

theorem deleteProfile_map_fields (s : ProfileStorage) (id : String) :
    ((s.deleteProfile id).inProgress = s.inProgress) ∧
    ((s.deleteProfile id).profiles = mapDelete s.profiles id) := by
  unfold ProfileStorage.deleteProfile
  cases h : mapGet s.profiles id <;> simp [h]

theorem fireTimer_map_fields (s : ProfileStorage) (h : Nat) :
    ((s.fireTimer h).inProgress = s.inProgress) ∧
    (((s.fireTimer h).profiles = s.profiles) ∨
      (∃ tg, (s.fireTimer h).profiles = mapDelete s.profiles tg)) := by
  unfold ProfileStorage.fireTimer
  cases hf : s.timers.find? (fun t => t.handle == h) with
  | none => simp [hf]
  | some t =>
    refine ⟨by simp [hf], Or.inr ⟨t.target, by simp [hf]⟩⟩

/-! ### Claim C5: an identifier is never in both maps -/

/-- Claim C5 (confirmed): from a state where the two maps share no
identifier (and the in-progress keys are unique, as a JS `Map`
guarantees), every storage operation preserves disjointness —
`markInProgress` under the middleware's guarantee that the generated id
has no completed record, everything else unconditionally — and
`isInProgress` is false immediately after `storeProfile` because it
deletes the in-progress entry before inserting the completed record. -/
theorem maps_exclusive_invariant (s : ProfileStorage)
    (hdisj : DisjointMaps s)
    (hnodupIP : (s.inProgress.map Prod.fst).Nodup) :
    (∀ now id dur, mapGet s.profiles id = none →
        DisjointMaps (s.markInProgress now id dur)) ∧
    (∀ now id data, DisjointMaps (s.storeProfile now id data) ∧
        (s.storeProfile now id data).isInProgress id = false) ∧
    (∀ now id, DisjointMaps (s.getProfile now id).2) ∧
    (∀ id, DisjointMaps (s.deleteProfile id)) ∧
    (∀ h, DisjointMaps (s.fireTimer h)) ∧
    DisjointMaps s.cleanup := by
  refine ⟨?_, ?_, ?_, ?_, ?_, ?_⟩
  · intro now id dur hfresh q
    by_cases hq : q = id
    · subst hq
      exact Or.inl (by simpa [ProfileStorage.markInProgress] using hfresh)
    · rcases hdisj q with hl | hr
      · exact Or.inl (by simpa [ProfileStorage.markInProgress] using hl)
      · refine Or.inr ?_
        show mapGet (mapSet s.inProgress id ⟨dur, now⟩) q = none
        rw [mapGet_set_ne _ _ _ _ hq]
        exact hr
  · intro now id data
    have hip : (s.storeProfile now id data).inProgress
        = mapDelete s.inProgress id :=
      (storeProfile_fields s now id data).2.2.2.2
    constructor
    · intro q
      by_cases hq : q = id
      · subst hq
        refine Or.inr ?_
        rw [hip]
        exact mapGet_delete_self _ _ hnodupIP
      · rcases hdisj q with hl | hr
        · exact Or.inl (storeProfile_get_other s now id q data hq hl)
        · refine Or.inr ?_
          rw [hip, mapGet_delete_ne _ _ _ hq]
          exact hr
    · unfold ProfileStorage.isInProgress
      rw [hip, mapGet_delete_self _ _ hnodupIP]
      rfl
  · intro now id q
    obtain ⟨hip, hpr⟩ := getProfile_snd_fields s now id
    rcases hdisj q with hl | hr
    · refine Or.inl ?_
      rcases hpr with hsame | hdel
      · rw [hsame]; exact hl
      · rw [hdel]; exact mapGet_delete_none _ _ _ hl
    · exact Or.inr (by rw [hip]; exact hr)
  · intro id q
    obtain ⟨hip, hpr⟩ := deleteProfile_map_fields s id
    rcases hdisj q with hl | hr
    · exact Or.inl (by rw [hpr]; exact mapGet_delete_none _ _ _ hl)
    · exact Or.inr (by rw [hip]; exact hr)
  · intro h q
    obtain ⟨hip, hpr⟩ := fireTimer_map_fields s h
    rcases hdisj q with hl | hr
    · refine Or.inl ?_
      rcases hpr with hsame | ⟨tg, hdel⟩
      · rw [hsame]; exact hl
      · rw [hdel]; exact mapGet_delete_none _ _ _ hl
    · exact Or.inr (by rw [hip]; exact hr)
  · intro q
    exact Or.inl rfl

/-- Witness for `maps_exclusive_invariant`: storing a profile for the
in-progress session `ab` keeps the maps disjoint and clears the
in-progress flag at once. -/
theorem maps_exclusive_invariant_witness :
    DisjointMaps (inProgressScenario.storeProfile 40 "ab" ⟨[1], [2]⟩) ∧
    (inProgressScenario.storeProfile 40 "ab" ⟨[1], [2]⟩).isInProgress "ab"
      = false :=
  (maps_exclusive_invariant inProgressScenario
    (fun id => Or.inl rfl) (by decide)).2.1 40 "ab" ⟨[1], [2]⟩

/-! ### Claim C8: collection failure leaves the store untouched -/

/-- Claim C8 (confirmed): when any stage of background collection or
encoding throws, the catch branch of `collectProfilesInBackground` only
logs — `storeProfile` is never reached, so the storage is exactly
unchanged: no completed record appears for the session and its
in-progress entry stays in place (and stays forever, as no other code
path deletes it). -/
theorem collection_failure_no_store (s : ProfileStorage) (now : Nat)
    (profileId msg : String) :
    collectProfilesInBackground s now profileId (Except.error msg) = s ∧
    (collectProfilesInBackground s now profileId
        (Except.error msg)).inProgress = s.inProgress ∧
    mapGet (collectProfilesInBackground s now profileId
        (Except.error msg)).profiles profileId
      = mapGet s.profiles profileId ∧
    (collectProfilesInBackground s now profileId
        (Except.error msg)).isInProgress profileId
      = s.isInProgress profileId :=
  ⟨rfl, rfl, rfl, rfl⟩

/-! ### Claim C9: teardown -/

/-- Claim C9 (counterexample): after a capacity eviction, `cleanup` does
not cancel the evicted record's scheduled removal — it only clears the
timers of entries currently in the map — so a pending scheduled removal
(handle 0, for `aa`) survives teardown, contradicting the claim that
every pending scheduled removal has been cancelled. -/
theorem cleanup_leaked_timer_cex :
    storeAB.cleanup.timers = [⟨0, 100, "aa"⟩] ∧
    storeAB.cleanup.timers ≠ [] := by decide

/-- Claim C9 (amended): after `cleanup` both maps are empty and no
record is retrievable, and the timers of all entries that were in the
completed map are cancelled; but a removal leaked earlier (by eviction
or overwrite) survives teardown. Firing any timer after teardown still
leaves both maps empty: deleting from the cleared map mutates nothing. -/
theorem cleanup_amended (s : ProfileStorage) :
    s.cleanup.profiles = [] ∧
    s.cleanup.inProgress = [] ∧
    (∀ now id, (s.cleanup.getProfile now id).1 = none) ∧
    (s.cleanup.timers = s.timers.filter
      (fun t => !((s.profiles.map (fun p => p.2.timeout)).contains
        t.handle))) ∧
    (∀ h, (s.cleanup.fireTimer h).profiles = []
      ∧ (s.cleanup.fireTimer h).inProgress = []) := by
  refine ⟨rfl, rfl, ?_, rfl, ?_⟩
  · intro now id
    show (ProfileStorage.getProfile _ now id).1 = none
    unfold ProfileStorage.getProfile
    simp [show mapGet s.cleanup.profiles id = none from rfl]
  · intro h
    obtain ⟨hip, hpr⟩ := fireTimer_map_fields s.cleanup h
    refine ⟨?_, hip⟩
    rcases hpr with hsame | ⟨tg, hdel⟩
    · exact hsame
    · exact hdel

/-! ### Claim C7: poll state machine -/

/-- Claim C7 (confirmed): polling an identifier answers 200 with the
progress page showing the recomputed remaining time while the session is
in progress with positive remaining time, 202 when in progress with
remaining time ≤ 0, 200 with the rendered results when a completed
record is found, and 404 otherwise. -/
theorem handleResultPage_states (cfg : MiddlewareConfig)
    (s : ProfileStorage) (now : Nat) (id : String) :
    (∀ md, s.getInProgressMetadata id = some md →
      ((0 : Int) < md.duration - ((now : Int) - (md.startTime : Int)) →
        (handleResultPage cfg s now id).1
          = ⟨200, Page.progress id
              (md.duration - ((now : Int) - (md.startTime : Int)))
              cfg.basePath⟩) ∧
      (md.duration - ((now : Int) - (md.startTime : Int)) ≤ 0 →
        (handleResultPage cfg s now id).1.status = 202)) ∧
    (s.isInProgress id = false →
      (∀ d, (s.getProfile now id).1 = some d →
        (handleResultPage cfg s now id).1
          = ⟨200, Page.results d.cpu d.heap⟩) ∧
      ((s.getProfile now id).1 = none →
        (handleResultPage cfg s now id).1.status = 404)) := by
  constructor
  · intro md hmd
    have hmd2 : mapGet s.inProgress id = some md := hmd
    have hip : s.isInProgress id = true := by
      unfold ProfileStorage.isInProgress
      rw [hmd2]
      rfl
    constructor
    · intro hpos
      have hmax : max 0 (md.duration - ((now : Int) - (md.startTime : Int)))
          = md.duration - ((now : Int) - (md.startTime : Int)) :=
        max_eq_right (le_of_lt hpos)
      simp [handleResultPage, hip, ProfileStorage.getInProgressMetadata,
        hmd2, hmax, hpos]
    · intro hnonpos
      have hmax : max 0 (md.duration - ((now : Int) - (md.startTime : Int)))
          = 0 := max_eq_left hnonpos
      simp [handleResultPage, hip, ProfileStorage.getInProgressMetadata,
        hmd2, hmax]
  · intro hip
    constructor
    · intro d hd
      simp [handleResultPage, hip, hd]
    · intro hd
      simp [handleResultPage, hip, hd]

/-- Witness for `handleResultPage_states`: the four protocol states at
concrete stores and times. -/
theorem handleResultPage_states_witness :
    ((handleResultPage MiddlewareConfig.defaults inProgressScenario 10
        "ab").1 = ⟨200, Page.progress "ab" 90 "/flamegraph"⟩) ∧
    ((handleResultPage MiddlewareConfig.defaults inProgressScenario 150
        "ab").1.status = 202) ∧
    ((handleResultPage MiddlewareConfig.defaults storeA3 0 "aa").1
      = ⟨200, Page.results [1] [2]⟩) ∧
    ((handleResultPage MiddlewareConfig.defaults storeA3 0 "zz").1.status
      = 404) := by
  refine ⟨?_, ?_, ?_, ?_⟩
  · exact ((handleResultPage_states MiddlewareConfig.defaults
      inProgressScenario 10 "ab").1 ⟨100, 0⟩ (by decide)).1 (by decide)
  · exact ((handleResultPage_states MiddlewareConfig.defaults
      inProgressScenario 150 "ab").1 ⟨100, 0⟩ (by decide)).2 (by decide)
  · exact ((handleResultPage_states MiddlewareConfig.defaults
      storeA3 0 "aa").2 (by decide)).1 ⟨[1], [2]⟩ (by decide)
  · exact ((handleResultPage_states MiddlewareConfig.defaults
      storeA3 0 "zz").2 (by decide)).2 (by decide)

/-! ### Claim C6: duration validation on the start route -/

/-- Claim C6 (confirmed): the start route accepts a human-readable
duration or raw milliseconds — with the external parse-duration
dependency modelled from the spec, "30s" is 30000ms, "5m" is 300000ms,
"1500" is 1500ms — rejects an unparsable value, a value ≤ 0, and a value
above the configured maximum with 400, uses the configured default when
the parameter is absent, and every launched session satisfies
0 < duration ≤ maxDuration. -/
theorem start_duration_validation (cfg : MiddlewareConfig)
    (s : ProfileStorage) (now : Nat) (freshId : String) :
    parseDuration "30s" = some 30000 ∧
    parseDuration "5m" = some 300000 ∧
    parseDuration "1500" = some 1500 ∧
    parseDuration "abc" = none ∧
    ((handleStartProfiling cfg s now (some "abc") freshId).response
      = ⟨400, Page.error "Invalid duration parameter"⟩) ∧
    (0 < cfg.defaultDuration → cfg.defaultDuration ≤ cfg.maxDuration →
      (handleStartProfiling cfg s now none freshId).response
        = ⟨200, Page.progress freshId cfg.defaultDuration cfg.basePath⟩) ∧
    (∀ raw d, queryParamTruthy (some raw) = true →
      parseDuration raw = some d → d ≤ 0 →
      (handleStartProfiling cfg s now (some raw) freshId).response
        = ⟨400, Page.error "Duration must be greater than 0"⟩) ∧
    (∀ raw d, queryParamTruthy (some raw) = true →
      parseDuration raw = some d → 0 < d → cfg.maxDuration < d →
      (handleStartProfiling cfg s now (some raw) freshId).response
        = ⟨400, Page.error "Duration exceeds maximum allowed"⟩) ∧
    (∀ p pid d, (handleStartProfiling cfg s now p freshId).started
        = some (pid, d) → 0 < d ∧ d ≤ cfg.maxDuration) := by
  refine ⟨by decide, by decide, by decide, by decide, ?_, ?_, ?_, ?_, ?_⟩
  · rfl
  · intro h1 h2
    simp [handleStartProfiling, queryParamTruthy, not_le.mpr h1,
      not_lt.mpr h2]
  · intro raw d ht hp hle
    simp [handleStartProfiling, ht, hp, hle]
  · intro raw d ht hp hpos hmax
    simp [handleStartProfiling, ht, hp, not_le.mpr hpos, hmax]
  · intro p pid d h
    unfold handleStartProfiling at h
    by_cases hq : queryParamTruthy p = true
    · simp only [hq, if_true] at h
      rcases hpd : parseDuration (p.getD "") with _ | dd
      · simp only [hpd] at h
        rcases hpi : parseIntJS (p.getD "") with _ | di
        · simp only [hpi] at h
          simp at h
        · simp only [hpi] at h
          by_cases hle : di ≤ 0
          · simp [hle] at h
          · by_cases hgt : di > cfg.maxDuration
            · simp [hle, hgt] at h
            · simp [hle, hgt] at h
              obtain ⟨-, hd⟩ := h
              subst hd
              omega
      · simp only [hpd] at h
        by_cases hle : dd ≤ 0
        · simp [hle] at h
        · by_cases hgt : dd > cfg.maxDuration
          · simp [hle, hgt] at h
          · simp [hle, hgt] at h
            obtain ⟨-, hd⟩ := h
            subst hd
            omega
    · simp only [Bool.not_eq_true] at hq
      simp only [hq, Bool.false_eq_true, if_false] at h
      by_cases hle : cfg.defaultDuration ≤ 0
      · simp [hle] at h
      · by_cases hgt : cfg.defaultDuration > cfg.maxDuration
        · simp [hle, hgt] at h
        · simp [hle, hgt] at h
          obtain ⟨-, hd⟩ := h
          subst hd
          omega

/-- Witness for `start_duration_validation` at the spec's concrete
configuration (default 100ms, maximum 500ms). -/
theorem start_duration_validation_witness :
    ((handleStartProfiling ⟨"/flamegraph", 500, 100⟩
        (ProfileStorage.init 10 1000) 0 none "id1").response
      = ⟨200, Page.progress "id1" 100 "/flamegraph"⟩) ∧
    ((handleStartProfiling ⟨"/flamegraph", 500, 100⟩
        (ProfileStorage.init 10 1000) 0 (some "1000") "id1").response
      = ⟨400, Page.error "Duration exceeds maximum allowed"⟩) ∧
    ((handleStartProfiling ⟨"/flamegraph", 500, 100⟩
        (ProfileStorage.init 10 1000) 0 (some "0") "id1").response
      = ⟨400, Page.error "Duration must be greater than 0"⟩) := by
  refine ⟨?_, ?_, ?_⟩
  · exact (start_duration_validation ⟨"/flamegraph", 500, 100⟩
      (ProfileStorage.init 10 1000) 0 "id1").2.2.2.2.2.1
      (by decide) (by decide)
  · exact (start_duration_validation ⟨"/flamegraph", 500, 100⟩
      (ProfileStorage.init 10 1000) 0 "id1").2.2.2.2.2.2.2.1
      "1000" 1000 (by decide) (by decide) (by decide) (by decide)
  · exact (start_duration_validation ⟨"/flamegraph", 500, 100⟩
      (ProfileStorage.init 10 1000) 0 "id1").2.2.2.2.2.2.1
      "0" 0 (by decide) (by decide) (by decide)

/-! ### Claim C1: routing and pass-through -/

/-- Claim C1 (counterexample): a request under the base path that
matches neither the start route nor the result route is not passed to
the next handler — the middleware itself writes a 404 error response. -/
theorem middleware_unmatched_subpath_cex :
    ((flamegraphMiddleware MiddlewareConfig.defaults
        (ProfileStorage.init 10 300000) 0 "/flamegraph/unknown" none
        "aa").outcome
      = Outcome.respond ⟨404, Page.error "Not found"⟩) ∧
    ¬((flamegraphMiddleware MiddlewareConfig.defaults
        (ProfileStorage.init 10 300000) 0 "/flamegraph/unknown" none
        "aa").outcome = Outcome.callNext) := by decide

/-- Claim C1 (amended): a request whose pathname does not start with the
base path is passed to the next handler with nothing written and the
storage untouched; a request under the base path matching neither the
start route nor the result route receives a 404 error response from the
middleware itself. -/
theorem middleware_routing_amended (cfg : MiddlewareConfig)
    (s : ProfileStorage) (now : Nat) (url : String) (p : Option String)
    (freshId : String) :
    (charsStartWith (pathnameOf url) cfg.basePath.data = false →
      flamegraphMiddleware cfg s now url p freshId
        = ⟨Outcome.callNext, s, none⟩) ∧
    (∀ subPath, charsStartWith (pathnameOf url) cfg.basePath.data = true →
      subPath = (if ((pathnameOf url).drop cfg.basePath.data.length).isEmpty
          then ['/']
          else (pathnameOf url).drop cfg.basePath.data.length) →
      subPath ≠ ['/'] → subPath ≠ ([] : List Char) →
      resultRouteMatch subPath = none →
      flamegraphMiddleware cfg s now url p freshId
        = ⟨Outcome.respond ⟨404, Page.error "Not found"⟩, s, none⟩) := by
  constructor
  · intro h
    unfold flamegraphMiddleware routeRequest
    simp [h]
  · intro subPath h hsub h1 h2 h3
    subst hsub
    unfold flamegraphMiddleware routeRequest
    simp only [h, Bool.not_true, Bool.false_eq_true, if_false]
    rw [if_neg (not_or.mpr ⟨h1, h2⟩), h3]

/-- Witness for `middleware_routing_amended`: a request outside the base
path passes through untouched; an unknown sub-path gets the 404 page. -/
theorem middleware_routing_amended_witness :
    (flamegraphMiddleware MiddlewareConfig.defaults
        (ProfileStorage.init 10 300000) 0 "/other-path" none "aa"
      = ⟨Outcome.callNext, ProfileStorage.init 10 300000, none⟩) ∧
    (flamegraphMiddleware MiddlewareConfig.defaults
        (ProfileStorage.init 10 300000) 0 "/flamegraph/admin" none "aa"
      = ⟨Outcome.respond ⟨404, Page.error "Not found"⟩,
          ProfileStorage.init 10 300000, none⟩) := by
  constructor
  · exact (middleware_routing_amended MiddlewareConfig.defaults
      (ProfileStorage.init 10 300000) 0 "/other-path" none "aa").1
      (by decide)
  · exact (middleware_routing_amended MiddlewareConfig.defaults
      (ProfileStorage.init 10 300000) 0 "/flamegraph/admin" none "aa").2
      ("/admin".data) (by decide) (by decide) (by decide) (by decide)
      (by decide)

end Flamegraph
